import Mathlib

/-!
Verification of the natural-language specification of the
sliderule-python example-notebook repository against the code of its
notebooks (and, where the client library itself is not among the
provided sources, against models written from the specification).

The development embeds, as executable Lean definitions:

* the pandas left-merge used to join the ATL08 and ATL06 result tables
  on the shared extent_id column (part_000, merge cell);
* the s3_retrieve helper of single_track_demo.ipynb, including its two
  exception handlers, the index sort, the duplicate-index removal and
  the final reprojection to EPSG:4326;
* the pandas concat seeded with sliderule.emptyframe() used by
  api_widgets_demo.ipynb to accumulate per-region results;
* the request-parameter mapping and the api_widgets loop that writes
  the poly entry before each dispatch;
* the region-of-interest builders, the granule-name field extraction
  (the regular expression of single_track_demo.ipynb) and a model of
  the metadata search;
* a model of io.to_file / io.from_file round trips over the two
  container formats.

Tables, frames and parameter mappings are modelled as lists; numeric
cell values are exact rationals.
-/

/-- A cell value of a tabular result set: missing, integer, string or
exact rational (standing for the numeric columns). -/
inductive Value where
  | null : Value
  | int : Int → Value
  | str : String → Value
  | rat : Rat → Value
deriving DecidableEq

/-- A longitude/latitude vertex of a region polygon. -/
structure Pt where
  lon : Rat
  lat : Rat
deriving DecidableEq

/-- A tabular result set keyed by the extent identifier: a column-name
list and rows carrying the extent_id key plus the cells aligned with
the columns.  This embeds the GeoDataFrames returned by atl08p and
atl06p with keep_id=True, as joined in part_000. -/
structure Table where
  cols : List String
  rows : List (Int × List Value)
deriving DecidableEq

/-- Suffixing rule of pandas merge: a column name that clashes with a
column of the other operand receives the given suffix. -/
def suffixClash (suf : String) (other : List String) (c : String) : String :=
  if c ∈ other then c ++ suf else c

/-- Column list of the merged table: the join key followed by the left
columns (suffixed with .atl08 on clash) and the right columns
(suffixed with .atl06 on clash), embedding
pd.merge(atl08, atl06, on=extent_id, suffixes=(.atl08, .atl06)). -/
def mergeCols (lc rc : List String) : List String :=
  "extent_id" :: (lc.map (suffixClash ".atl08" rc) ++ rc.map (suffixClash ".atl06" lc))

/-- Rows of the right table whose extent_id equals the given key. -/
def matchRows (R : Table) (k : Int) : List (Int × List Value) :=
  R.rows.filter (fun r => r.1 = k)

/-- Output rows contributed by one left row under a pandas left merge:
one row padded with nulls when the key has no match on the right, and
one row per matching right row otherwise. -/
def mergeRow (R : Table) (l : Int × List Value) : List (Int × List Value) :=
  match matchRows R l.1 with
  | [] => [(l.1, l.2 ++ List.replicate R.cols.length Value.null)]
  | ms => ms.map (fun r => (l.1, l.2 ++ r.2))

/-- The pandas left merge on extent_id used in part_000:
geopandas.pd.merge(atl08, atl06, on=extent_id, how=left,
suffixes=(.atl08, .atl06)). -/
def leftMerge (L R : Table) : Table :=
  ⟨mergeCols L.cols R.cols, L.rows.flatMap (mergeRow R)⟩

/-- pandas set_axis: relabel the rows with the given index, raising
(None here) when the lengths disagree.  Embeds the
.set_axis(atl08.index) call of part_000. -/
def setAxis (t : Table) (idx : List Int) : Option Table :=
  if idx.length = t.rows.length then
    some ⟨t.cols, (idx.zip t.rows).map (fun p => (p.1, p.2.2))⟩
  else
    none

/-- One-row ATL08-side table used to exhibit the duplicate-key
behaviour of the left merge. -/
def atl08dup : Table :=
  ⟨["h_canopy"], [(1, [Value.rat 5])]⟩

/-- Right-side table in which the extent_id value 1 repeats, so the
left merge duplicates the matching left row. -/
def atl06dup : Table :=
  ⟨["h_mean"], [(1, [Value.rat 7]), (1, [Value.rat 8])]⟩

/-- A geospatial result frame: rows keyed by the index value (the time
index, as an integer timestamp) with their cells, plus the coordinate
reference system tag. -/
structure Frame where
  rows : List (Int × List Value)
  crs : String
deriving DecidableEq

/-- Modelled from the spec: sliderule.emptyframe, the client-library
helper (not among the provided sources) that returns an empty result
frame; it is used by the notebooks both to seed the per-region
accumulation list and as the fallback value of s3_retrieve. -/
def emptyframe : Frame :=
  ⟨[], "EPSG:4326"⟩

/-- pandas concat as called by the notebooks: it raises (an error
value here) on an empty list of objects, and otherwise concatenates
the rows in order, keeping the reference system of the first frame. -/
def pdConcat : List Frame → Except String Frame
  | [] => Except.error "No objects to concatenate"
  | f :: fs => Except.ok ⟨f.rows ++ (fs.map Frame.rows).flatten, f.crs⟩

/-- The accumulation of api_widgets_demo.ipynb: the elevations list is
seeded with sliderule.emptyframe() and extended with one result frame
per clicked region, then reduced with geopandas.pd.concat. -/
def gdfOf (regionResults : List Frame) : Except String Frame :=
  pdConcat (emptyframe :: regionResults)

/-- Row ordering on the index key, embedding gdf.sort_index(). -/
def rowLe (a b : Int × List Value) : Prop := a.1 ≤ b.1

instance : DecidableRel rowLe :=
  fun a b => inferInstanceAs (Decidable (a.1 ≤ b.1))

instance : IsTotal (Int × List Value) rowLe :=
  ⟨fun a b => Int.le_total a.1 b.1⟩

instance : IsTrans (Int × List Value) rowLe :=
  ⟨fun _ _ _ h h2 => Int.le_trans h h2⟩

/-- Duplicate-index removal, embedding gdf[~gdf.index.duplicated()]:
a row is kept exactly when its index key has not occurred earlier
(the seen accumulator) in the frame. -/
def keepFirstAux (seen : List Int) : List (Int × List Value) → List (Int × List Value)
  | [] => []
  | a :: l =>
    if a.1 ∈ seen then keepFirstAux seen l
    else a :: keepFirstAux (a.1 :: seen) l

/-- Reprojection to a coordinate reference system.  The index and the
cell values are unaffected by a reprojection; only the reference
system tag changes in this embedding. -/
def toCrs (f : Frame) (c : String) : Frame :=
  ⟨f.rows, c⟩

/-- The optional polygon argument of s3_retrieve: a reference system
and the per-row predicate of the gpd.overlay intersection performed in
that reference system. -/
structure PolyFilter where
  crs : String
  keep : Int × List Value → Bool

/-- Per-beam retrieval result of s3_retrieve: the h5.h5p fetch and the
time-column computation for one ground track either raise or produce
the rows of a per-beam frame. -/
def beamFrames (outcomes : List (Except String (List (Int × List Value)))) :
    List (List (Int × List Value)) :=
  outcomes.filterMap Except.toOption

/-- The tail of the s3_retrieve body: gdf.set_index, gdf.sort_index,
removal of duplicate index values, and the final conversion back to
EPSG:4326. -/
def s3RetrievePost (g1 : Frame) : Frame :=
  toCrs ⟨keepFirstAux [] (List.insertionSort rowLe g1.rows), g1.crs⟩ "EPSG:4326"

/-- The s3_retrieve body after a successful concatenation: build the
frame in EPSG:4326, optionally intersect with the polygon in its
projected reference system, then index, sort, remove duplicates and
reproject (s3RetrievePost). -/
def s3RetrieveOk (df : List (Int × List Value)) (polygon : Option PolyFilter) : Frame :=
  let g0 : Frame := ⟨df, "EPSG:4326"⟩
  let g1 : Frame :=
    match polygon with
    | none => g0
    | some p => ⟨(toCrs g0 p.crs).rows.filter p.keep, p.crs⟩
  s3RetrievePost g1

/-- The s3_retrieve function of single_track_demo.ipynb: per-beam
failures are suppressed (the try/except/else around h5.h5p), the
surviving frames are concatenated (falling back to
sliderule.emptyframe() when pd.concat raises on no frames), and the
successful concatenation is post-processed by s3RetrieveOk. -/
def s3Retrieve (outcomes : List (Except String (List (Int × List Value))))
    (polygon : Option PolyFilter) : Frame :=
  match beamFrames outcomes with
  | [] => emptyframe
  | f :: fs => s3RetrieveOk (f ++ fs.flatten) polygon

/-- The notebook cell as an Except computation: the value the cell
delivers, or the exception it lets propagate.  s3_retrieve never
delivers an error because both of its failure paths are caught
locally. -/
def s3RetrieveCell (outcomes : List (Except String (List (Int × List Value))))
    (polygon : Option PolyFilter) : Except String Frame :=
  Except.ok (s3Retrieve outcomes polygon)

/-- The all-beams-failed input: every h5.h5p call raises. -/
def allBeamsFail : List (Except String (List (Int × List Value))) :=
  List.replicate 6 (Except.error "h5p failure")

/-- A request-parameter value: a number (srt, cnf, ats, cnt, len, res,
maxi and friends), a string (t0, t1), a boolean flag (pass_invalid), a
region polygon, or a list of strings (atl08_class, atl08_fields). -/
inductive PVal where
  | num : Rat → PVal
  | str : String → PVal
  | flag : Bool → PVal
  | poly : List Pt → PVal
  | strs : List String → PVal
deriving DecidableEq

/-- The request-parameter mapping (a Python dict) as an association
list without duplicate handling beyond insertion order. -/
def Parms : Type := List (String × PVal)

instance : DecidableEq Parms := inferInstanceAs (DecidableEq (List (String × PVal)))

/-- Dictionary lookup parms[k]. -/
def lookupParm (k : String) : Parms → Option PVal
  | [] => none
  | (k2, v) :: p => if k2 = k then some v else lookupParm k p

/-- Dictionary assignment parms[k] = v: replaces the entry when the
key is present, appends it otherwise. -/
def insertParm (k : String) (v : PVal) : Parms → Parms
  | [] => [(k, v)]
  | (k2, v2) :: p => if k2 = k then (k, v) :: p else (k2, v2) :: insertParm k v p

/-- The per-region request loop of api_widgets_demo.ipynb: for each
polygon of m.regions the cell executes parms[poly] = poly and then
dispatches icesat2.atl06p(parms).  The returned list holds the mapping
exactly as dispatched in each iteration; the mapping is mutated in
place, so later iterations start from the previous state. -/
def loopDispatch : Parms → List PVal → List Parms
  | _, [] => []
  | p, r :: rs =>
    let q := insertParm "poly" r p
    q :: loopDispatch q rs

/-- Modelled from the spec: SRwidgets.build_atl06 of the client
library (not among the provided sources) assembles the mapping of
named processing options from the widget values; the region polygon is
not among them, being supplied afterwards from the map region list.
This concrete mapping instantiates it with the option names the
notebooks use. -/
def buildAtl06Parms : Parms :=
  [("srt", PVal.num 0), ("cnf", PVal.num 4), ("ats", PVal.num 10),
   ("cnt", PVal.num 10), ("len", PVal.num 40), ("res", PVal.num 20),
   ("maxi", PVal.num 1)]

/-- A GeoJSON region file reduced to the data the builder consumes:
the ring of polygon vertices it contains. -/
structure GeoJsonFile where
  ring : List Pt

/-- A region structure: named entries whose values are vertex lists. -/
def Region : Type := List (String × List Pt)

/-- Lookup of an entry of a region structure, as in region[poly]. -/
def lookupRegion (k : String) : Region → Option (List Pt)
  | [] => none
  | (k2, v) :: r => if k2 = k then some v else lookupRegion k r

/-- Modelled from the spec: sliderule.toregion of the client library
(not among the provided sources) converts a geographic file (GeoJSON)
into a polygon structure consumed by request parameters; the structure
exposes the polygon under the poly entry. -/
def toregion (f : GeoJsonFile) : Region :=
  [("poly", f.ring)]

/-- Modelled from the spec: io.to_region of the client library (not
among the provided sources) converts literal coordinate lists into the
polygon consumed as the region parameter of a request. -/
def toRegionCoords (lons lats : List Rat) : List Pt :=
  (lons.zip lats).map (fun p => ⟨p.1, p.2⟩)

/-- The parameter assembly of part_000: parms = poly from
region[poly], then the named processing options.  It propagates the
missing-key failure of region[poly] as None. -/
def parmsFromRegion (rg : Region) (opts : Parms) : Option Parms :=
  (lookupRegion "poly" rg).map (fun ps => ("poly", PVal.poly ps) :: opts)

/-- The named options of the part_000 request cell following the poly
entry. -/
def part000Opts : Parms :=
  [("srt", PVal.num 0), ("cnf", PVal.num 4), ("ats", PVal.num 10),
   ("cnt", PVal.num 10), ("len", PVal.num 40), ("res", PVal.num 20),
   ("maxi", PVal.num 1)]

/-- The parameter assembly of single_track_demo.ipynb: the poly entry
holds the io.to_region output, followed by the named options of that
cell. -/
def parmsSingleTrack (lons lats : List Rat) : Parms :=
  ("poly", PVal.poly (toRegionCoords lons lats)) ::
    [("cnf", PVal.num 4), ("ats", PVal.num 20), ("cnt", PVal.num 10),
     ("len", PVal.num 40), ("res", PVal.num 20), ("maxi", PVal.num 1)]

/-- The fourteen capture groups of the granule-name regular expression
of single_track_demo.ipynb, in order: product, hemisphere, year,
month, day, hour, minute, second, track, cycle, region, release,
version, auxiliary. -/
structure GranuleFields where
  prd : String
  hem : String
  yy : String
  mm : String
  dd : String
  hh : String
  mn : String
  ss : String
  trk : String
  cycl : String
  grn : String
  rl : String
  vrs : String
  aux : String
deriving DecidableEq

/-- The fourteen extracted fields as a list, in unpacking order. -/
def fieldsOf (f : GranuleFields) : List String :=
  [f.prd, f.hem, f.yy, f.mm, f.dd, f.hh, f.mn, f.ss,
   f.trk, f.cycl, f.grn, f.rl, f.vrs, f.aux]

/-- Exactly n decimal digits, as in the d-quantifier groups of the
regular expression. -/
def digits : Nat → List Char → Option (List Char × List Char)
  | 0, cs => some ([], cs)
  | _ + 1, [] => none
  | n + 1, c :: cs =>
    if c.isDigit then (digits n cs).map (fun p => (c :: p.1, p.2)) else none

/-- The optional hemisphere group (-dd)? of the regular expression:
committed when a minus sign is present (the following character in the
pattern is an underscore, so no backtracking can succeed), empty
otherwise. -/
def parseHem : List Char → Option (String × List Char)
  | '-' :: cs => (digits 2 cs).map (fun p => (String.mk ('-' :: p.1), p.2))
  | cs => some ("", cs)

/-- A single expected literal character of the pattern. -/
def expectChar (c : Char) : List Char → Option (List Char)
  | [] => none
  | c2 :: cs => if c2 = c then some cs else none

/-- The anchored pattern tail (.*?).h5 followed by the end of the
string: the last two characters must be h and 5, the third-from-last
is the any-character dot, and the auxiliary group is what precedes. -/
def parseTail (cs : List Char) : Option String :=
  match cs.reverse with
  | '5' :: 'h' :: _ :: auxRev => some (String.mk auxRev.reverse)
  | _ => none

/-- The six date and time capture groups (year, month, day, hour,
minute, second) of the regular expression. -/
def parseDateTime (cs : List Char) : Option (List String × List Char) := do
  let (yy, r4) ← digits 4 cs
  let (mm, r5) ← digits 2 r4
  let (dd, r6) ← digits 2 r5
  let (hh, r7) ← digits 2 r6
  let (mn, r8) ← digits 2 r7
  let (ss, r9) ← digits 2 r8
  some ([String.mk yy, String.mk mm, String.mk dd,
         String.mk hh, String.mk mn, String.mk ss], r9)

/-- The three orbit capture groups (track, cycle, region) of the
regular expression. -/
def parseOrbit (cs : List Char) : Option (List String × List Char) := do
  let (trk, r11) ← digits 4 cs
  let (cycl, r12) ← digits 2 r11
  let (grn, r13) ← digits 2 r12
  some ([String.mk trk, String.mk cycl, String.mk grn], r13)

/-- The groups following the ATL literal of the pattern. -/
def parseAfterATL (cs : List Char) : Option GranuleFields := do
  let (d1, r1) ← digits 2 cs
  let (hem, r2) ← parseHem r1
  let r3 ← expectChar '_' r2
  let (dt, r9) ← parseDateTime r3
  let r10 ← expectChar '_' r9
  let (orb, r13) ← parseOrbit r10
  let r14 ← expectChar '_' r13
  let (rl, r15) ← digits 3 r14
  let r16 ← expectChar '_' r15
  let (vrs, r17) ← digits 2 r16
  let aux ← parseTail r17
  match dt, orb with
  | [yy, mm, dd, hh, mn, ss], [trk, cycl, grn] =>
    some ⟨String.mk ('A' :: 'T' :: 'L' :: d1), hem, yy, mm, dd, hh, mn, ss,
          trk, cycl, grn, String.mk rl, String.mk vrs, aux⟩
  | _, _ => none

/-- The granule-name field extraction of single_track_demo.ipynb,
embedding rx.findall(granule).pop() for the regular expression
(ATLdd)(-dd)?_(dddd)(dd)(dd)(dd)(dd)(dd)_(dddd)(dd)(dd)_(ddd)_(dd)(.*?).h5$
applied from the start of the name (granule names begin with the ATL
literal, so the leftmost and only match starts at position zero). -/
def parseGranule (s : String) : Option GranuleFields :=
  match s.toList with
  | 'A' :: 'T' :: 'L' :: cs => parseAfterATL cs
  | _ => none

/-- Character-list comparison underlying the short-name test. -/
def listStartsWith : List Char → List Char → Bool
  | _, [] => true
  | [], _ :: _ => false
  | c :: cs, d :: ds => c = d && listStartsWith cs ds

/-- Whether the resource identifier begins with the queried product
short name. -/
def nameStartsWith (s sn : String) : Bool :=
  listStartsWith s.toList sn.toList

/-- Modelled from the spec: a catalog entry of the metadata search, a
resource identifier together with its time coverage and its bounding
box. -/
structure CatalogEntry where
  name : String
  tmin : Nat
  tmax : Nat
  minLon : Rat
  maxLon : Rat
  minLat : Rat
  maxLat : Rat
deriving DecidableEq

/-- Whether a catalog entry satisfies the query: its identifier starts
with the short name, its time coverage meets the query range, and its
bounding box meets the bounding box of the query polygon. -/
def entryMatches (sn : String) (poly : List Pt) (t0 t1 : Nat) (e : CatalogEntry) : Bool :=
  match poly with
  | [] => false
  | p :: ps =>
    let lo := (ps.map Pt.lon).foldl min p.lon
    let hi := (ps.map Pt.lon).foldl max p.lon
    let la := (ps.map Pt.lat).foldl min p.lat
    let lb := (ps.map Pt.lat).foldl max p.lat
    nameStartsWith e.name sn && decide (e.tmin ≤ t1) && decide (t0 ≤ e.tmax) &&
      decide (lo ≤ e.maxLon) && decide (e.minLon ≤ hi) &&
      decide (la ≤ e.maxLat) && decide (e.minLat ≤ lb)

/-- Modelled from the spec: earthdata.cmr, the metadata search
(short name, polygon, time range) returning the list of resource
identifiers of the catalog entries that satisfy the query. -/
def cmr (sn : String) (polygon : List Pt) (t0 t1 : Nat)
    (catalog : List CatalogEntry) : List String :=
  (catalog.filter (entryMatches sn polygon t0 t1)).map CatalogEntry.name

/-- The literal coordinate-list region of boulder_watershed_demo.ipynb
passed directly as the poly request parameter. -/
def boulderRegion : List Pt :=
  [⟨-105.82971551223244, 39.81983728534918⟩,
   ⟨-105.30742121965137, 39.81983728534918⟩,
   ⟨-105.30742121965137, 40.164048017973755⟩,
   ⟨-105.82971551223244, 40.164048017973755⟩,
   ⟨-105.82971551223244, 39.81983728534918⟩]

/-- The literal longitude list of single_track_demo.ipynb. -/
def singleTrackBoxLon : List Rat := [-105, -105, -100, -100, -105]

/-- The literal latitude list of single_track_demo.ipynb. -/
def singleTrackBoxLat : List Rat := [-75, -77.5, -77.5, -75, -75]

/-- The polygon passed as the poly request parameter by
single_track_demo.ipynb, built from the literal coordinate lists by
io.to_region. -/
def singleTrackPoly : List Pt :=
  toRegionCoords singleTrackBoxLon singleTrackBoxLat

/-- A typed storage cell of a container file: the two container
libraries store tagged scalar values; structure is flattened into a
stream of such cells. -/
inductive Tok where
  | nat : Nat → Tok
  | int : Int → Tok
  | str : String → Tok
  | rat : Rat → Tok
deriving DecidableEq

/-- A result table as saved to a file: column names and the cell rows. -/
structure ResultTable where
  cols : List String
  rows : List (List Value)
deriving DecidableEq

/-- The payload of io.to_file: the result table together with its
originating request parameters and regions. -/
structure Saved where
  table : ResultTable
  parameters : List (String × PVal)
  regions : List (List Pt)
deriving DecidableEq

/-- Length-prefixed encoding of a list. -/
def encList (enc : α → List Tok) (xs : List α) : List Tok :=
  Tok.nat xs.length :: xs.flatMap enc

/-- Decode a known number of consecutive elements. -/
def decCount (dec : List Tok → Option (α × List Tok)) :
    Nat → List Tok → Option (List α × List Tok)
  | 0, ts => some ([], ts)
  | n + 1, ts =>
    match dec ts with
    | none => none
    | some (a, ts1) =>
      match decCount dec n ts1 with
      | none => none
      | some (as, ts2) => some (a :: as, ts2)

/-- Decode a length-prefixed list. -/
def decList (dec : List Tok → Option (α × List Tok)) :
    List Tok → Option (List α × List Tok)
  | Tok.nat n :: ts => decCount dec n ts
  | _ => none

/-- Encoding of one cell value. -/
def encVal : Value → List Tok
  | Value.null => [Tok.nat 0]
  | Value.int z => [Tok.nat 1, Tok.int z]
  | Value.str s => [Tok.nat 2, Tok.str s]
  | Value.rat q => [Tok.nat 3, Tok.rat q]

/-- Decoding of one cell value. -/
def decVal : List Tok → Option (Value × List Tok)
  | Tok.nat 0 :: ts => some (Value.null, ts)
  | Tok.nat 1 :: Tok.int z :: ts => some (Value.int z, ts)
  | Tok.nat 2 :: Tok.str s :: ts => some (Value.str s, ts)
  | Tok.nat 3 :: Tok.rat q :: ts => some (Value.rat q, ts)
  | _ => none

/-- Encoding of one column name. -/
def encStr (s : String) : List Tok := [Tok.str s]

/-- Decoding of one column name. -/
def decStr : List Tok → Option (String × List Tok)
  | Tok.str s :: ts => some (s, ts)
  | _ => none

/-- Encoding of one polygon vertex. -/
def encPt (p : Pt) : List Tok := [Tok.rat p.lon, Tok.rat p.lat]

/-- Decoding of one polygon vertex. -/
def decPt : List Tok → Option (Pt × List Tok)
  | Tok.rat a :: Tok.rat b :: ts => some (⟨a, b⟩, ts)
  | _ => none

/-- Encoding of one request-parameter value. -/
def encPVal : PVal → List Tok
  | PVal.num q => [Tok.nat 0, Tok.rat q]
  | PVal.str s => [Tok.nat 1, Tok.str s]
  | PVal.flag b => [Tok.nat 2, Tok.nat (if b then 1 else 0)]
  | PVal.poly ps => Tok.nat 3 :: encList encPt ps
  | PVal.strs l => Tok.nat 4 :: encList encStr l

/-- Decoding of one request-parameter value. -/
def decPVal : List Tok → Option (PVal × List Tok)
  | Tok.nat 0 :: Tok.rat q :: ts => some (PVal.num q, ts)
  | Tok.nat 1 :: Tok.str s :: ts => some (PVal.str s, ts)
  | Tok.nat 2 :: Tok.nat b :: ts => some (PVal.flag (b = 1), ts)
  | Tok.nat 3 :: ts => (decList decPt ts).map (fun p => (PVal.poly p.1, p.2))
  | Tok.nat 4 :: ts => (decList decStr ts).map (fun p => (PVal.strs p.1, p.2))
  | _ => none

/-- Encoding of one named parameter. -/
def encParm (p : String × PVal) : List Tok :=
  Tok.str p.1 :: encPVal p.2

/-- Decoding of one named parameter. -/
def decParm : List Tok → Option ((String × PVal) × List Tok)
  | Tok.str k :: ts => (decPVal ts).map (fun p => ((k, p.1), p.2))
  | _ => none

/-- Encoding of one table row. -/
def encRow (r : List Value) : List Tok := encList encVal r

/-- Decoding of one table row. -/
def decRow (ts : List Tok) : Option (List Value × List Tok) :=
  decList decVal ts

/-- Encoding of one region polygon. -/
def encPoly2 (ps : List Pt) : List Tok := encList encPt ps

/-- Decoding of one region polygon. -/
def decPoly2 (ts : List Tok) : Option (List Pt × List Tok) :=
  decList decPt ts

/-- Flattening of the whole payload into the cell stream: the column
names, the rows, the parameters and the regions in order. -/
def encSaved (b : Saved) : List Tok :=
  encList encStr b.table.cols ++ encList encRow b.table.rows ++
    encList encParm b.parameters ++ encList encPoly2 b.regions

/-- Parsing of the whole payload back from the cell stream. -/
def decSaved (ts : List Tok) : Option (Saved × List Tok) :=
  match decList decStr ts with
  | none => none
  | some (cols, t1) =>
    match decList decRow t1 with
    | none => none
    | some (rows, t2) =>
      match decList decParm t2 with
      | none => none
      | some (parms, t3) =>
        match decList decPoly2 t3 with
        | none => none
        | some (regions, t4) => some (⟨⟨cols, rows⟩, parms, regions⟩, t4)

/-- The two interchangeable container formats of the save/load
interface. -/
inductive FileFormat where
  | hdf5 : FileFormat
  | netcdf : FileFormat
deriving DecidableEq

/-- The container signature cell identifying the format. -/
def formatTag : FileFormat → Tok
  | FileFormat.hdf5 => Tok.str "HDF5"
  | FileFormat.netcdf => Tok.str "netCDF"

/-- Modelled from the spec: io.to_file of the client library (not
among the provided sources) saves the result table with the
originating parameters and regions into one of the two container
formats (pytables HDF5 or netCDF). -/
def toFile (b : Saved) (fmt : FileFormat) : List Tok :=
  formatTag fmt :: encSaved b

/-- Modelled from the spec: io.from_file of the client library (not
among the provided sources) loads the result table with the saved
parameters and regions back from a container file of the given
format. -/
def fromFile (fmt : FileFormat) (file : List Tok) : Option Saved :=
  match file with
  | [] => none
  | t :: ts =>
    if t = formatTag fmt then
      match decSaved ts with
      | some (b, []) => some b
      | _ => none
    else
      none

/-- Left-side table with distinct extent_id keys, one of them absent
from the right table. -/
def atl08uni : Table :=
  ⟨["h_canopy"], [(1, [Value.rat 5]), (2, [Value.rat 6])]⟩

/-- Right-side table with distinct extent_id keys. -/
def atl06uni : Table :=
  ⟨["h_mean"], [(1, [Value.rat 7])]⟩

/-- Concrete per-beam outcomes: one beam delivers rows with an
out-of-order and duplicated time index, one beam fails. -/
def beamOutcomesW : List (Except String (List (Int × List Value))) :=
  [Except.ok [(2, [Value.rat 1]), (1, [Value.rat 2]), (2, [Value.rat 3])],
   Except.error "cloud cover"]

/-- Whether every per-beam retrieval failed. -/
def allFailB (outcomes : List (Except String (List (Int × List Value)))) : Bool :=
  outcomes.all (fun o => o.toOption.isNone)

/-- The rows delivered by a concatenation, None when it raised. -/
def rowsOfE : Except String Frame → Option (List (Int × List Value))
  | Except.ok g => some g.rows
  | Except.error _ => none

/-- A one-row per-region result frame. -/
def frameW : Frame := ⟨[(0, [Value.rat 1])], "EPSG:4326"⟩

/-- The region polygon written into the mapping by the api_widgets
loop in the concrete witness run. -/
def regionPolyW : PVal :=
  PVal.poly [⟨-105, 39⟩, ⟨-105, 40⟩, ⟨-106, 40⟩, ⟨-105, 39⟩]

/-- The query polygon of the concrete metadata-search witness. -/
def queryPolyW : List Pt :=
  [⟨-105, -75⟩, ⟨-105, -77⟩, ⟨-100, -77⟩, ⟨-100, -75⟩, ⟨-105, -75⟩]

/-- A one-granule catalog whose entry satisfies the witness query. -/
def catalogW : List CatalogEntry :=
  [⟨"ATL03_20181019224323_03250112_005_01.h5", 20181019, 20181020, -106, -99, -78, -74⟩]

theorem filter_key_length_le_one (rows : List (Int × List Value)) (k : Int)
    (h : (rows.map Prod.fst).Nodup) :
    (rows.filter (fun r => decide (r.1 = k))).length ≤ 1 := by
  induction rows with
  | nil => simp
  | cons r rs ih =>
    simp only [List.map_cons, List.nodup_cons] at h
    by_cases hk : r.1 = k
    · have hnone : rs.filter (fun r => decide (r.1 = k)) = [] := by
        apply List.filter_eq_nil_iff.mpr
        intro x hx
        simp only [decide_eq_true_eq]
        intro hxk
        exact h.1 (by
          subst hk
          rw [← hxk]
          exact List.mem_map_of_mem Prod.fst hx)
      simp [List.filter_cons, hk, hnone]
    · simpa [List.filter_cons, hk] using ih h.2

theorem mergeRow_length_eq_one (R : Table) (l : Int × List Value)
    (h : (R.rows.map Prod.fst).Nodup) :
    (mergeRow R l).length = 1 := by
  have hle := filter_key_length_le_one R.rows l.1 h
  unfold mergeRow matchRows
  unfold matchRows at hle
  cases hm : R.rows.filter (fun r => decide (r.1 = l.1)) with
  | nil => simp
  | cons m ms =>
    rw [hm] at hle
    simp only [List.length_cons] at hle
    have : ms = [] := List.eq_nil_of_length_eq_zero (by omega)
    subst this
    simp

/-- C1 (amended): when the extent_id values of the right table are
distinct, the left merge on extent_id yields exactly one row per left
row, whether or not each left extent_id appears on the right, so the
row count equals the left row count and set_axis with the left index
succeeds. -/
theorem leftMerge_preserves_left_count (L R : Table)
    (h : (R.rows.map Prod.fst).Nodup) :
    (leftMerge L R).rows.length = L.rows.length ∧
    (setAxis (leftMerge L R) (L.rows.map Prod.fst)).isSome = true := by
  have hlen : ∀ ls : List (Int × List Value),
      (ls.flatMap (mergeRow R)).length = ls.length := by
    intro ls
    induction ls with
    | nil => simp
    | cons a l ih =>
      simp [List.flatMap_cons, mergeRow_length_eq_one R a h, ih, Nat.add_comm]
  constructor
  · exact hlen L.rows
  · simp [setAxis, hlen L.rows, leftMerge]

theorem leftMerge_preserves_left_count_witness :
    (atl06uni.rows.map Prod.fst).Nodup ∧
    ((leftMerge atl08uni atl06uni).rows.length = atl08uni.rows.length ∧
      (setAxis (leftMerge atl08uni atl06uni) (atl08uni.rows.map Prod.fst)).isSome = true) :=
  ⟨by decide, leftMerge_preserves_left_count atl08uni atl06uni (by decide)⟩

/-- C1 (counterexample): with the extent_id value 1 repeated in the
right table, the left merge duplicates the matching left row, the row
count (2) differs from the left row count (1), and set_axis with the
left index fails. -/
theorem leftMerge_dup_counterexample :
    ¬ ((leftMerge atl08dup atl06dup).rows.length = atl08dup.rows.length) ∧
    setAxis (leftMerge atl08dup atl06dup) (atl08dup.rows.map Prod.fst) = none := by
  decide

/-- C4: the merged table carries the union of the two column lists
(name clashes disambiguated by the .atl08 and .atl06 suffixes around
the shared extent_id key), and for every left row and right row
sharing an extent_id, the merged table contains the row combining the
cells of both. -/
theorem leftMerge_combines (L R : Table) :
    (leftMerge L R).cols = mergeCols L.cols R.cols ∧
    ∀ l ∈ L.rows, ∀ r ∈ R.rows, r.1 = l.1 →
      (l.1, l.2 ++ r.2) ∈ (leftMerge L R).rows := by
  refine ⟨rfl, ?_⟩
  intro l hl r hr hk
  have hrm : r ∈ matchRows R l.1 :=
    List.mem_filter.mpr ⟨hr, by simp [hk]⟩
  have hmem : (l.1, l.2 ++ r.2) ∈ mergeRow R l := by
    unfold mergeRow
    cases hm : matchRows R l.1 with
    | nil => rw [hm] at hrm; cases hrm
    | cons m ms =>
      rw [hm] at hrm
      exact List.mem_map.mpr ⟨r, hrm, rfl⟩
  exact List.mem_flatMap.mpr ⟨l, hl, hmem⟩

theorem leftMerge_combines_witness :
    ((1 : Int), [Value.rat 5]) ∈ atl08uni.rows ∧
    ((1 : Int), [Value.rat 7]) ∈ atl06uni.rows ∧
    ((1 : Int), [Value.rat 5, Value.rat 7]) ∈ (leftMerge atl08uni atl06uni).rows :=
  ⟨by decide, by decide,
    (leftMerge_combines atl08uni atl06uni).2 (1, [Value.rat 5]) (by decide)
      (1, [Value.rat 7]) (by decide) (by decide)⟩


theorem keepFirstAux_sublist (l : List (Int × List Value)) :
    ∀ seen, (keepFirstAux seen l).Sublist l := by
  induction l with
  | nil => intro seen; simp [keepFirstAux]
  | cons a l ih =>
    intro seen
    unfold keepFirstAux
    by_cases hs : a.1 ∈ seen
    · simp only [hs, if_pos]
      exact (ih seen).cons a
    · simp only [hs, if_neg, not_false_iff]
      exact (ih (a.1 :: seen)).cons₂ a

theorem keepFirstAux_nodup (l : List (Int × List Value)) :
    ∀ seen, ((keepFirstAux seen l).map Prod.fst).Nodup ∧
      ∀ k ∈ seen, k ∉ (keepFirstAux seen l).map Prod.fst := by
  induction l with
  | nil => intro seen; simp [keepFirstAux]
  | cons a l ih =>
    intro seen
    unfold keepFirstAux
    by_cases hs : a.1 ∈ seen
    · simp only [hs, if_pos]
      exact ih seen
    · simp only [hs, if_neg, not_false_iff, List.map_cons, List.nodup_cons]
      have h2 := ih (a.1 :: seen)
      refine ⟨⟨h2.2 a.1 (List.mem_cons_self a.1 seen), h2.1⟩, ?_⟩
      intro k hk
      simp only [List.mem_cons]
      rintro (rfl | hmem)
      · exact hs hk
      · exact h2.2 k (List.mem_cons_of_mem _ hk) hmem

theorem s3RetrievePost_good (g : Frame) :
    List.Sorted (· ≤ ·) ((s3RetrievePost g).rows.map Prod.fst) ∧
    ((s3RetrievePost g).rows.map Prod.fst).Nodup ∧
    (s3RetrievePost g).crs = "EPSG:4326" := by
  refine ⟨?_, (keepFirstAux_nodup _ []).1, rfl⟩
  have hsorted : List.Sorted rowLe (List.insertionSort rowLe g.rows) :=
    List.sorted_insertionSort rowLe g.rows
  have hsub := keepFirstAux_sublist (List.insertionSort rowLe g.rows) []
  have hkept : List.Sorted rowLe (keepFirstAux [] (List.insertionSort rowLe g.rows)) :=
    List.Pairwise.sublist hsub hsorted
  exact List.pairwise_map.mpr hkept

theorem s3RetrieveOk_good (df : List (Int × List Value)) (polygon : Option PolyFilter) :
    List.Sorted (· ≤ ·) ((s3RetrieveOk df polygon).rows.map Prod.fst) ∧
    ((s3RetrieveOk df polygon).rows.map Prod.fst).Nodup ∧
    (s3RetrieveOk df polygon).crs = "EPSG:4326" := by
  unfold s3RetrieveOk
  exact s3RetrievePost_good _

/-- C8: whenever s3_retrieve returns a non-empty frame, its index is
sorted in ascending order without duplicate index values and its
coordinate reference system is EPSG:4326, for every assembly order of
the per-beam datasets and every intermediate reprojection for the
polygon intersection. -/
theorem s3Retrieve_sorted_nodup_crs
    (outcomes : List (Except String (List (Int × List Value))))
    (polygon : Option PolyFilter)
    (h : (s3Retrieve outcomes polygon).rows.isEmpty = false) :
    List.Sorted (· ≤ ·) ((s3Retrieve outcomes polygon).rows.map Prod.fst) ∧
    ((s3Retrieve outcomes polygon).rows.map Prod.fst).Nodup ∧
    (s3Retrieve outcomes polygon).crs = "EPSG:4326" := by
  unfold s3Retrieve at h ⊢
  cases hb : beamFrames outcomes with
  | nil =>
    rw [hb] at h
    exact Bool.noConfusion h
  | cons f fs => exact s3RetrieveOk_good _ _

theorem s3Retrieve_sorted_nodup_crs_witness :
    (s3Retrieve beamOutcomesW none).rows.isEmpty = false ∧
    (List.Sorted (· ≤ ·) ((s3Retrieve beamOutcomesW none).rows.map Prod.fst) ∧
      ((s3Retrieve beamOutcomesW none).rows.map Prod.fst).Nodup ∧
      (s3Retrieve beamOutcomesW none).crs = "EPSG:4326") :=
  ⟨by decide, s3Retrieve_sorted_nodup_crs beamOutcomesW none (by decide)⟩

/-- C3 (counterexample): in the s3_retrieve cell of
single_track_demo.ipynb, with every per-beam retrieval raising, the
cell delivers the substituted fallback value sliderule.emptyframe()
instead of letting any exception propagate, so the repository does
contain code that catches a failure and substitutes a fallback
value. -/
theorem s3Retrieve_catches_counterexample :
    allFailB allBeamsFail = true ∧
    s3RetrieveCell allBeamsFail none = Except.ok emptyframe :=
  ⟨by decide, congrArg Except.ok (by decide : s3Retrieve allBeamsFail none = emptyframe)⟩

theorem beamFrames_filter_ok
    (outcomes : List (Except String (List (Int × List Value)))) :
    beamFrames (outcomes.filter (fun o => o.toOption.isSome)) = beamFrames outcomes := by
  induction outcomes with
  | nil => rfl
  | cons o l ih =>
    cases o with
    | error e => simpa [beamFrames, List.filter_cons, Except.toOption] using ih
    | ok v => simpa [beamFrames, List.filter_cons, Except.toOption] using ih

theorem beamFrames_all_fail
    (outcomes : List (Except String (List (Int × List Value))))
    (h : allFailB outcomes = true) :
    beamFrames outcomes = [] := by
  induction outcomes with
  | nil => rfl
  | cons o l ih =>
    simp only [allFailB, List.all_cons, Bool.and_eq_true] at h
    have ho : o.toOption = none := Option.isNone_iff_eq_none.mp h.1
    simp only [beamFrames, List.filterMap_cons, ho]
    exact ih h.2

/-- C3 (amended): the notebooks contain exactly one function with
exception handling, s3_retrieve of single_track_demo.ipynb; its
try/except blocks suppress per-beam retrieval failures (the result
depends only on the successful outcomes) and substitute
sliderule.emptyframe() when every beam fails, while every other cell
lets exceptions propagate unhandled. -/
theorem s3Retrieve_recovery
    (outcomes : List (Except String (List (Int × List Value))))
    (polygon : Option PolyFilter) :
    s3Retrieve outcomes polygon =
      s3Retrieve (outcomes.filter (fun o => o.toOption.isSome)) polygon ∧
    (allFailB outcomes = true → s3Retrieve outcomes polygon = emptyframe) := by
  constructor
  · unfold s3Retrieve
    rw [beamFrames_filter_ok]
  · intro h
    unfold s3Retrieve
    rw [beamFrames_all_fail outcomes h]

theorem s3Retrieve_recovery_witness :
    allFailB allBeamsFail = true ∧
    s3Retrieve allBeamsFail none = emptyframe :=
  ⟨by decide, (s3Retrieve_recovery allBeamsFail none).2 (by decide)⟩

/-- C9: seeding the accumulation list with sliderule.emptyframe() is
an identity for the concatenation: for a non-empty list of per-region
frames the seeded concatenation succeeds and delivers exactly the rows
of the unseeded concatenation, and for an empty region list it
delivers the empty frame instead of raising the no-objects error of
pandas concat. -/
theorem emptyframe_seed_identity (fs : List Frame) :
    (fs.isEmpty = false →
      rowsOfE (gdfOf fs) = rowsOfE (pdConcat fs) ∧ (gdfOf fs).isOk = true) ∧
    gdfOf [] = Except.ok emptyframe := by
  constructor
  · intro h
    cases fs with
    | nil => cases h
    | cons f fs2 =>
      constructor
      · simp [gdfOf, pdConcat, emptyframe, rowsOfE]
      · rfl
  · rfl

theorem emptyframe_seed_identity_witness :
    ([frameW] : List Frame).isEmpty = false ∧
    (rowsOfE (gdfOf [frameW]) = rowsOfE (pdConcat [frameW]) ∧ (gdfOf [frameW]).isOk = true) :=
  ⟨by decide, (emptyframe_seed_identity [frameW]).1 (by decide)⟩

theorem lookupParm_insert_ne (k k2 : String) (v : PVal) (p : Parms) (h : k2 ≠ k) :
    lookupParm k2 (insertParm k v p) = lookupParm k2 p := by
  induction p with
  | nil =>
    simp only [insertParm, lookupParm]
    rw [if_neg (fun hh => h hh.symm)]
  | cons a p ih =>
    obtain ⟨ka, va⟩ := a
    simp only [insertParm]
    by_cases hk : ka = k
    · subst hk
      simp only [if_pos rfl, lookupParm]
      rw [if_neg (fun hh => h hh.symm), if_neg (fun hh => h hh.symm)]
    · simp only [if_neg hk, lookupParm]
      by_cases hk2 : ka = k2
      · simp [hk2]
      · simp [hk2, ih]

theorem loopDispatch_preserves (rs : List PVal) :
    ∀ (p q : Parms), q ∈ loopDispatch p rs →
      ∀ k, k ≠ "poly" → lookupParm k q = lookupParm k p := by
  induction rs with
  | nil =>
    intro p q hq
    cases hq
  | cons r rs ih =>
    intro p q hq k hk
    simp only [loopDispatch, List.mem_cons] at hq
    cases hq with
    | inl h =>
      subst h
      exact lookupParm_insert_ne "poly" k r p hk
    | inr h =>
      rw [ih (insertParm "poly" r p) q h k hk]
      exact lookupParm_insert_ne "poly" k r p hk

/-- C5: the assembled mapping of named processing options is passed to
the dispatchers unchanged.  In the notebooks with a direct dispatch the
mapping flows syntactically unmodified into the call; in the
api_widgets region loop, the only entry written between assembly and
each dispatch is the poly region entry, so every named option of the
assembled mapping (which carries no poly entry) is looked up unchanged
in every dispatched mapping. -/
theorem parms_opaque_dispatch (assembled : Parms) (polys : List PVal)
    (hp : lookupParm "poly" assembled = none) :
    ∀ q ∈ loopDispatch assembled polys, ∀ k v,
      lookupParm k assembled = some v → lookupParm k q = some v := by
  intro q hq k v hv
  have hk : k ≠ "poly" := by
    rintro rfl
    rw [hp] at hv
    cases hv
  rw [loopDispatch_preserves polys assembled q hq k hk]
  exact hv

theorem parms_opaque_dispatch_witness :
    lookupParm "poly" buildAtl06Parms = none ∧
    insertParm "poly" regionPolyW buildAtl06Parms ∈ loopDispatch buildAtl06Parms [regionPolyW] ∧
    lookupParm "len" buildAtl06Parms = some (PVal.num 40) ∧
    lookupParm "len" (insertParm "poly" regionPolyW buildAtl06Parms) = some (PVal.num 40) :=
  ⟨by decide, by decide, by decide,
    parms_opaque_dispatch buildAtl06Parms [regionPolyW] (by decide)
      (insertParm "poly" regionPolyW buildAtl06Parms) (by decide) "len" (PVal.num 40)
      (by decide)⟩

/-- C6: for every geographic file and every literal coordinate list,
the region-of-interest builder returns a polygon structure exposing a
poly entry, and the request assemblers of the notebooks consume
exactly that entry as the region parameter of the processing
request. -/
theorem region_builder_poly (f : GeoJsonFile) (lons lats : List Rat) :
    lookupRegion "poly" (toregion f) = some f.ring ∧
    parmsFromRegion (toregion f) part000Opts =
      some (("poly", PVal.poly f.ring) :: part000Opts) ∧
    lookupParm "poly" (parmsSingleTrack lons lats) =
      some (PVal.poly (toRegionCoords lons lats)) :=
  ⟨rfl, rfl, rfl⟩

/-- C10: each literal coordinate-list region passed as the poly
request parameter in the notebooks (the boulder watershed rectangle
and the single-track box) is a closed ring: its first vertex equals
its last vertex in both coordinates. -/
theorem literal_regions_closed :
    boulderRegion.head? = boulderRegion.getLast? ∧
    singleTrackPoly.head? = singleTrackPoly.getLast? :=
  ⟨rfl, rfl⟩

/-- C7 (counterexample): a metadata-search query over a catalog with
no matching granules returns the empty identifier list, so the list
consumed by the notebook is not non-empty for every query and the
resources[0] lookup has nothing to deliver. -/
theorem cmr_empty_counterexample :
    cmr "ATL03" singleTrackPoly 20181019 20181020 [] = [] ∧
    (cmr "ATL03" singleTrackPoly 20181019 20181020 []).head? = none :=
  ⟨rfl, rfl⟩

/-- C7 (amended): the metadata search returns the identifiers of the
catalog entries satisfying the query; whenever the returned list is
non-empty and the catalog identifiers are well-formed granule
filenames, the first element starts with the queried short name,
matches the granule-name pattern, and the extraction of the fourteen
filename fields succeeds. -/
theorem cmr_first_extraction (sn : String) (poly : List Pt) (t0 t1 : Nat)
    (catalog : List CatalogEntry)
    (hwf : catalog.all (fun e => (parseGranule e.name).isSome) = true)
    (hne : (cmr sn poly t0 t1 catalog).isEmpty = false) :
    ((cmr sn poly t0 t1 catalog).head?.map (fun g => nameStartsWith g sn)) = some true ∧
    ((cmr sn poly t0 t1 catalog).head?.bind parseGranule).isSome = true ∧
    ((cmr sn poly t0 t1 catalog).head?.bind
      (fun g => (parseGranule g).map (fun fd => (fieldsOf fd).length))) = some 14 := by
  cases hc : cmr sn poly t0 t1 catalog with
  | nil =>
    rw [hc] at hne
    exact Bool.noConfusion hne
  | cons m rest =>
    have hm : m ∈ cmr sn poly t0 t1 catalog := by
      rw [hc]
      exact List.mem_cons_self m rest
    obtain ⟨e, hef, hname⟩ := List.mem_map.mp hm
    obtain ⟨hecat, hematch⟩ := List.mem_filter.mp hef
    have hsw : nameStartsWith e.name sn = true := by
      unfold entryMatches at hematch
      cases poly with
      | nil => exact Bool.noConfusion hematch
      | cons p ps =>
        simp only [Bool.and_eq_true] at hematch
        exact hematch.1.1.1.1.1.1
    have hparse : (parseGranule e.name).isSome = true := by
      have hall := List.all_eq_true.mp hwf e hecat
      simpa using hall
    obtain ⟨fd, hfd⟩ := Option.isSome_iff_exists.mp hparse
    simp only [List.head?_cons, Option.map_some', Option.some_bind]
    rw [← hname]
    refine ⟨by rw [hsw], by rw [hfd]; rfl, by rw [hfd]; rfl⟩

theorem cmr_first_extraction_witness :
    catalogW.all (fun e => (parseGranule e.name).isSome) = true ∧
    (cmr "ATL03" queryPolyW 20181019 20181020 catalogW).isEmpty = false ∧
    (((cmr "ATL03" queryPolyW 20181019 20181020 catalogW).head?.map
        (fun g => nameStartsWith g "ATL03")) = some true ∧
      ((cmr "ATL03" queryPolyW 20181019 20181020 catalogW).head?.bind parseGranule).isSome = true ∧
      ((cmr "ATL03" queryPolyW 20181019 20181020 catalogW).head?.bind
        (fun g => (parseGranule g).map (fun fd => (fieldsOf fd).length))) = some 14) :=
  ⟨by decide, by decide,
    cmr_first_extraction "ATL03" queryPolyW 20181019 20181020 catalogW (by decide) (by decide)⟩

theorem decVal_enc (v : Value) (r : List Tok) :
    decVal (encVal v ++ r) = some (v, r) := by
  cases v <;> rfl

theorem decStr_enc (s : String) (r : List Tok) :
    decStr (encStr s ++ r) = some (s, r) := rfl

theorem decPt_enc (p : Pt) (r : List Tok) :
    decPt (encPt p ++ r) = some (p, r) := rfl

theorem decCount_enc {α : Type} (dec : List Tok → Option (α × List Tok))
    (enc : α → List Tok)
    (h : ∀ a r, dec (enc a ++ r) = some (a, r)) :
    ∀ (xs : List α) (r : List Tok),
      decCount dec xs.length (xs.flatMap enc ++ r) = some (xs, r) := by
  intro xs
  induction xs with
  | nil => intro r; rfl
  | cons a l ih =>
    intro r
    rw [List.length_cons, List.flatMap_cons, List.append_assoc]
    simp only [decCount, h a, ih r]

theorem decList_enc {α : Type} (dec : List Tok → Option (α × List Tok))
    (enc : α → List Tok)
    (h : ∀ a r, dec (enc a ++ r) = some (a, r))
    (xs : List α) (r : List Tok) :
    decList dec (encList enc xs ++ r) = some (xs, r) := by
  show decList dec (Tok.nat xs.length :: (xs.flatMap enc ++ r)) = some (xs, r)
  show decCount dec xs.length (xs.flatMap enc ++ r) = some (xs, r)
  exact decCount_enc dec enc h xs r

theorem decPVal_enc (v : PVal) (r : List Tok) :
    decPVal (encPVal v ++ r) = some (v, r) := by
  cases v with
  | num q => rfl
  | str s => rfl
  | flag b => cases b <;> rfl
  | poly ps =>
    show (decList decPt (encList encPt ps ++ r)).map (fun p => (PVal.poly p.1, p.2)) =
      some (PVal.poly ps, r)
    rw [decList_enc decPt encPt decPt_enc]
    rfl
  | strs l =>
    show (decList decStr (encList encStr l ++ r)).map (fun p => (PVal.strs p.1, p.2)) =
      some (PVal.strs l, r)
    rw [decList_enc decStr encStr decStr_enc]
    rfl

theorem decParm_enc (p : String × PVal) (r : List Tok) :
    decParm (encParm p ++ r) = some (p, r) := by
  obtain ⟨k, v⟩ := p
  show (decPVal (encPVal v ++ r)).map (fun q => ((k, q.1), q.2)) = some ((k, v), r)
  rw [decPVal_enc]
  rfl

theorem decRow_enc (vs : List Value) (r : List Tok) :
    decRow (encRow vs ++ r) = some (vs, r) :=
  decList_enc decVal encVal decVal_enc vs r

theorem decPoly2_enc (ps : List Pt) (r : List Tok) :
    decPoly2 (encPoly2 ps ++ r) = some (ps, r) :=
  decList_enc decPt encPt decPt_enc ps r

theorem decSaved_enc (b : Saved) (r : List Tok) :
    decSaved (encSaved b ++ r) = some (b, r) := by
  unfold encSaved decSaved
  simp only [List.append_assoc, decList_enc decStr encStr decStr_enc,
    decList_enc decRow encRow decRow_enc, decList_enc decParm encParm decParm_enc,
    decList_enc decPoly2 encPoly2 decPoly2_enc]

/-- C2: for every saved payload (result table content, originating
parameters and regions) and for either supported container format, the
save/load round trip through io.to_file and io.from_file is the
identity: loading the saved file returns exactly the table rows and
columns, the parameters and the regions that were saved. -/
theorem save_load_roundtrip (b : Saved) (fmt : FileFormat) :
    fromFile fmt (toFile b fmt) = some b := by
  have h := decSaved_enc b []
  rw [List.append_nil] at h
  unfold toFile fromFile
  dsimp only
  rw [if_pos rfl, h]
